import Mathlib

/-!
Shallow embedding of `single_image_run.py` (VIBeID repository).

The script has three routines that the claims are about:
  * `download_data_from_kaggle` (lines 43-58): skip when the output
    directory already holds data, otherwise validate the credential path,
    install the credential file and invoke the `kaggle` CLI;
  * `train_and_test_model` (lines 80-138): the epoch loop with metric
    accumulation, per-epoch printing, scheduler step and
    checkpoint-on-improvement;
  * `get_model` (lines 141-157): construct a torchvision resnet with
    `weights=None` and replace its final fully-connected layer.

The numeric framework (model forward, loss, optimizer, scheduler) is
abstracted into an environment of step functions over an opaque state
type `S`; real numbers produced by `loss.item()` and the accuracy
divisions are modelled as `Rat`.  A Python division by zero
(ZeroDivisionError, uncaught) is modelled by the epoch loop returning
`none`.  Side effects (prints, `torch.save`, filesystem writes, the
download CLI call) are modelled as explicit event lists.
-/

/-! ## download_data_from_kaggle -/

/-- The slice of filesystem state that `download_data_from_kaggle`
inspects: whether `output_dir` exists (`os.path.exists`) and what
`os.listdir(output_dir)` returns. -/
structure FS where
  outputDirExists : Bool
  outputDirEntries : List String
  deriving Repr, DecidableEq

/-- Side effects the function can perform, in program order:
`print`, `os.makedirs`, `shutil.copy`, `os.chmod`, `subprocess.run` of
the kaggle CLI. -/
inductive FsEffect where
  | print (s : String)
  | makedirs (path : String)
  | copyFile (src dst : String)
  | chmod (path : String) (mode : Nat)
  | runCli (args : List String)
  deriving Repr, DecidableEq

/-- Whether an effect writes to the local filesystem (directory creation,
credential copy, chmod). -/
def FsEffect.touchesFs : FsEffect → Bool
  | .makedirs _ => true
  | .copyFile _ _ => true
  | .chmod _ _ => true
  | _ => false

/-- How a call to `download_data_from_kaggle` ends: early return on
existing data, an uncaught `ValueError`, or a completed download. -/
inductive DlResult where
  | skipped
  | raised (msg : String)
  | completed
  deriving Repr, DecidableEq

/-- `True` exactly on the `raised` constructor. -/
def DlResult.isRaised : DlResult → Bool
  | .raised _ => true
  | _ => false

/-- The outcome of a call: final result plus the effects performed, in
order. -/
structure DlRun where
  result : DlResult
  effects : List FsEffect
  deriving Repr, DecidableEq

/-- Python truthiness of the `kaggle_json_path` argument as used by
`if not kaggle_json_path:` — `None` and the empty string are falsy. -/
def pathTruthy : Option String → Bool
  | none => false
  | some s => !(s = "")

/-- `download_data_from_kaggle(kaggle_json_path, kaggle_dataset, output_dir)`,
lines 43-58 of `single_image_run.py`, over the filesystem slice `fs`. -/
def downloadDataFromKaggle (kaggleJsonPath : Option String)
    (kaggleDataset outputDir : String) (fs : FS) : DlRun :=
  if fs.outputDirExists ∧ fs.outputDirEntries ≠ [] then
    { result := .skipped
      effects := [.print ("Data already exists in " ++ outputDir ++ ". Skipping download.")] }
  else
    let eff0 : List FsEffect :=
      [.print ("Downloading data from Kaggle: " ++ kaggleDataset ++ " to " ++ outputDir)]
    if pathTruthy kaggleJsonPath = false then
      { result := .raised "The path to kaggle.json must be provided."
        effects := eff0 }
    else
      { result := .completed
        effects := eff0 ++
          [.makedirs "~/.kaggle",
           .copyFile (kaggleJsonPath.getD "") "~/.kaggle/kaggle.json",
           .chmod "~/.kaggle/kaggle.json" 0o600,
           .runCli ["kaggle", "datasets", "download", "-d", kaggleDataset,
                    "-p", outputDir, "--unzip"],
           .print "Download completed."] }

/-! ## get_model -/

/-- The two torchvision architectures the script can construct. -/
inductive ModelArch where
  | resnet18
  | resnet50
  deriving Repr, DecidableEq

/-- The final classification layer of the model: either the original
`nn.Linear` that ships with the torchvision resnet, or the
`nn.Sequential(nn.Linear(in, out))` the script installs in its place. -/
inductive FcLayer where
  | linear (inFeatures outFeatures : Nat) (pretrained : Bool)
  | seqLinear (inFeatures outFeatures : Nat)
  deriving Repr, DecidableEq

/-- `in_features` of the final layer (`model.fc.in_features`). -/
def FcLayer.inFeatures : FcLayer → Nat
  | .linear i _ _ => i
  | .seqLinear i _ => i

/-- The observable structure of the resnet the script builds:
architecture, whether its weights were loaded from a pretrained
checkpoint, the final layer, and whether all parameters have
`requires_grad = True`. -/
structure ResNetModel where
  arch : ModelArch
  pretrained : Bool
  fc : FcLayer
  paramsRequireGrad : Bool
  deriving Repr, DecidableEq

/-- `torchvision.models.resnet18(weights=w)`: a resnet18 whose final
layer is `Linear(512, 1000)`; its weights are pretrained exactly when a
weights enum is passed. -/
def resnet18 (weights : Option Unit) : ResNetModel :=
  { arch := .resnet18
    pretrained := weights.isSome
    fc := .linear 512 1000 weights.isSome
    paramsRequireGrad := true }

/-- `torchvision.models.resnet50(weights=w)`: final layer
`Linear(2048, 1000)`. -/
def resnet50 (weights : Option Unit) : ResNetModel :=
  { arch := .resnet50
    pretrained := weights.isSome
    fc := .linear 2048 1000 weights.isSome
    paramsRequireGrad := true }

/-- `get_model(model_name, num_classes)`, lines 141-157: dispatch on the
name (raising `ValueError` otherwise), set every parameter's
`requires_grad` to `True`, and replace `model.fc` by
`nn.Sequential(nn.Linear(num_ftrs, num_classes))`. -/
def getModel (modelName : String) (numClasses : Nat) :
    Except String ResNetModel :=
  match
    (if modelName = "resnet18" then Except.ok (resnet18 none)
     else if modelName = "resnet50" then Except.ok (resnet50 none)
     else Except.error ("Unsupported model: " ++ modelName)) with
  | Except.error e => Except.error e
  | Except.ok model =>
      let model := { model with paramsRequireGrad := true }
      let numFtrs := model.fc.inFeatures
      Except.ok { model with fc := .seqLinear numFtrs numClasses }

/-! ## train_and_test_model

The torch objects (`model`, `optimizer`, `scheduler`, `criterion`,
`device`) are abstracted into one mutable state `S`; a batch
`(images, labels)` is a value of type `B` whose `labels.size(0)` is
`batchSize`; a saved `state_dict()` is a value of type `P`.  One
iteration of the training loop body (lines 90-101: `zero_grad`,
forward, loss, `backward`, `optimizer.step`) is `trainStep`, returning
the updated state, `loss.item()` and the number of correct
predictions; one iteration of the `torch.no_grad()` test loop body
(lines 112-121) is `evalStep`, which cannot update the state. -/

/-- Abstraction of the torch objects driving one run of
`train_and_test_model`. -/
structure Env (S B P : Type) where
  trainBatches : List B
  testBatches : List B
  batchSize : B → Nat
  setTrain : S → S
  setEval : S → S
  trainStep : S → B → S × Rat × Nat
  evalStep : S → B → Rat × Nat
  useScheduler : Bool
  schedStep : S → Rat → S
  snapshot : S → P

variable {S B P : Type}

/-- Accumulator of the training pass: current state plus
`running_loss`, `correct`, `total` (lines 85-87, updated lines 98-101). -/
structure PassAcc (S : Type) where
  st : S
  lossSum : Rat
  correct : Nat
  total : Nat

/-- Accumulator of the test pass: `test_loss`, `test_correct`,
`test_total` (lines 107-109, updated lines 117-121). -/
structure EvalAcc where
  lossSum : Rat
  correct : Nat
  total : Nat
  deriving Repr, DecidableEq

/-- The `for images, labels in train_loader:` loop, lines 89-101. -/
def trainPass (env : Env S B P) : List B → PassAcc S → PassAcc S
  | [], a => a
  | b :: bs, a =>
      let r := env.trainStep a.st b
      trainPass env bs
        { st := r.1
          lossSum := a.lossSum + r.2.1
          correct := a.correct + r.2.2
          total := a.total + env.batchSize b }

/-- The `for images, labels in test_loader:` loop under
`torch.no_grad()`, lines 112-121; the model state `s` is read-only. -/
def evalPass (env : Env S B P) (s : S) : List B → EvalAcc → EvalAcc
  | [], a => a
  | b :: bs, a =>
      let r := env.evalStep s b
      evalPass env s bs
        { lossSum := a.lossSum + r.1
          correct := a.correct + r.2
          total := a.total + env.batchSize b }

/-- The per-epoch data: the four printed metrics (line 126) and, when
the checkpoint was written this epoch (lines 133-136), the saved
parameter snapshot.  `total` and `testTotal` are the accumulated label
counts of the two passes. -/
structure EpochResult (P : Type) where
  trainLoss : Rat
  trainAcc : Rat
  testLoss : Rat
  testAcc : Rat
  total : Nat
  testTotal : Nat
  saved : Option P
  deriving Repr, DecidableEq

/-- One iteration of the epoch loop, lines 84-136.  The four divisions
(lines 103, 104, 123, 124) are guarded: a zero divisor is Python's
uncaught `ZeroDivisionError`, modelled as `none`.  Returns the state
after the epoch, the updated `best_accuracy`, and the epoch's record. -/
def epochBody (env : Env S B P) (s : S) (best : Rat) :
    Option (S × Rat × EpochResult P) :=
  let a := trainPass env env.trainBatches
    { st := env.setTrain s, lossSum := 0, correct := 0, total := 0 }
  if env.trainBatches.length = 0 then none
  else if a.total = 0 then none
  else
    let epochLoss := a.lossSum / (env.trainBatches.length : Rat)
    let epochAcc := (a.correct : Rat) / (a.total : Rat)
    let sEval := env.setEval a.st
    let e := evalPass env sEval env.testBatches
      { lossSum := 0, correct := 0, total := 0 }
    if env.testBatches.length = 0 then none
    else if e.total = 0 then none
    else
      let testLoss := e.lossSum / (env.testBatches.length : Rat)
      let testAcc := (e.correct : Rat) / (e.total : Rat)
      let s4 := if env.useScheduler then env.schedStep sEval testLoss else sEval
      if best < testAcc then
        some (s4, testAcc,
          { trainLoss := epochLoss, trainAcc := epochAcc
            testLoss := testLoss, testAcc := testAcc
            total := a.total, testTotal := e.total
            saved := some (env.snapshot s4) })
      else
        some (s4, best,
          { trainLoss := epochLoss, trainAcc := epochAcc
            testLoss := testLoss, testAcc := testAcc
            total := a.total, testTotal := e.total
            saved := none })

/-- The `for epoch in range(num_epochs):` loop, line 83, threading the
model state and `best_accuracy` and collecting the epoch records in
order. -/
def runEpochs (env : Env S B P) : Nat → S → Rat →
    Option (S × Rat × List (EpochResult P))
  | 0, s, best => some (s, best, [])
  | Nat.succ n, s, best =>
      match epochBody env s best with
      | none => none
      | some (s1, best1, r) =>
          match runEpochs env n s1 best1 with
          | none => none
          | some (s2, best2, rs) => some (s2, best2, r :: rs)

/-- `train_and_test_model(...)`, lines 80-138: `best_accuracy = 0.0`
then the epoch loop; `none` models an uncaught exception. -/
def trainAndTestModel (env : Env S B P) (s : S) (numEpochs : Nat) :
    Option (List (EpochResult P)) :=
  (runEpochs env numEpochs s 0).map (fun x => x.2.2)

/-! ### The observable I/O of `train_and_test_model`

All output of the epoch loop: prints, and the only persistence
operation, `torch.save(model.state_dict(), 'best_model.pth')` at line
135.  Numeric formatting of the metrics line is abstracted: the
`metrics` event carries the printed numbers. -/

/-- Output events of the training loop: plain prints, the per-epoch
metrics line (line 126), and a checkpoint write (line 135). -/
inductive Event (P : Type) where
  | msg (s : String)
  | metrics (epoch numEpochs : Nat) (trainLoss trainAcc testLoss testAcc : Rat)
  | save (path : String) (params : P)
  deriving Repr, DecidableEq

/-- `True` exactly on the per-epoch metrics line. -/
def Event.isMetrics : Event P → Bool
  | .metrics _ _ _ _ _ _ => true
  | _ => false

/-- The path an event persists to, `none` for prints. -/
def Event.writePath : Event P → Option String
  | .save p _ => some p
  | _ => none

/-- The events emitted by epoch `i` (0-based), lines 126-136: the
metrics line, then, when the checkpoint was written, the save and its
confirmation print. -/
def epochEvents (i n : Nat) (r : EpochResult P) : List (Event P) :=
  Event.metrics (i + 1) n r.trainLoss r.trainAcc r.testLoss r.testAcc ::
    match r.saved with
    | some p =>
        [Event.save "best_model.pth" p,
         Event.msg ("Model saved at epoch " ++ toString (i + 1))]
    | none => []

/-- Concatenated events of the epochs starting at index `i`. -/
def epochTraces (n : Nat) : Nat → List (EpochResult P) → List (Event P)
  | _, [] => []
  | i, r :: rs => epochEvents i n r ++ epochTraces n (i + 1) rs

/-- The whole output of `train_and_test_model`: the opening print
(line 81), the epochs' events, the closing print (line 138). -/
def traceOfResults (n : Nat) (rs : List (EpochResult P)) : List (Event P) :=
  Event.msg ("Training the model for " ++ toString n ++ " epochs.") ::
    (epochTraces n 0 rs ++ [Event.msg "Training completed!"])

/-- The output trace of a run, `none` when the run raises. -/
def runTrace (env : Env S B P) (s : S) (numEpochs : Nat) :
    Option (List (Event P)) :=
  (trainAndTestModel env s numEpochs).map (traceOfResults numEpochs)

/-- Sum of `labels.size(0)` over the training loader, i.e. the number
of training samples the loader yields in one full pass. -/
def trainSampleCount (env : Env S B P) : Nat :=
  (env.trainBatches.map env.batchSize).sum

/-- Sum of `labels.size(0)` over the test loader. -/
def testSampleCount (env : Env S B P) : Nat :=
  (env.testBatches.map env.batchSize).sum

/-- `best_accuracy` as maintained by lines 82 and 133-134: the running
maximum of the test accuracies seen so far, started at `0.0`.  Since
test accuracies are quotients of counts they are nonnegative, so for a
nonempty list this is exactly the maximum of the earlier epochs' test
accuracies, and `0` when there are none. -/
def bestBefore (accs : List Rat) : Rat := accs.foldl max 0

/-! ### Concrete instantiations used to witness the theorems

A batch is coded by its label count (`B := Nat`), the torch state by a
step counter (`S := Nat`), a parameter snapshot by the state it was
taken from (`P := Nat`). -/

/-- A toy run: one training batch and one test batch of two samples
each; every training prediction is correct, exactly one test
prediction per batch is correct, so every epoch has test accuracy
`1/2`. -/
def demoEnv : Env Nat Nat Nat :=
  { trainBatches := [2]
    testBatches := [2]
    batchSize := fun b => b
    setTrain := fun s => s
    setEval := fun s => s
    trainStep := fun s b => (s + 1, 1, b)
    evalStep := fun _ _ => (1, 1)
    useScheduler := true
    schedStep := fun s _ => s
    snapshot := fun s => s }

/-- A toy run whose test accuracy is `0` in every epoch: no test
prediction is ever correct. -/
def zeroAccEnv : Env Nat Nat Nat :=
  { demoEnv with evalStep := fun _ _ => (1, 0) }

/-- `demoEnv` with an empty training loader. -/
def emptyTrainEnv : Env Nat Nat Nat :=
  { demoEnv with trainBatches := [] }

/-- The epoch records of a two-epoch run of `demoEnv`: the first epoch
improves on `best_accuracy = 0` and is checkpointed, the second ties
at `1/2` and is not. -/
def demoResults : List (EpochResult Nat) :=
  [{ trainLoss := 1, trainAcc := 1, testLoss := 1, testAcc := 1/2,
     total := 2, testTotal := 2, saved := some 1 },
   { trainLoss := 1, trainAcc := 1, testLoss := 1, testAcc := 1/2,
     total := 2, testTotal := 2, saved := none }]

/-- The output trace of the same two-epoch `demoEnv` run. -/
def demoTrace : List (Event Nat) :=
  [Event.msg "Training the model for 2 epochs.",
   Event.metrics 1 2 1 1 1 (1/2),
   Event.save "best_model.pth" 1,
   Event.msg "Model saved at epoch 1",
   Event.metrics 2 2 1 1 1 (1/2),
   Event.msg "Training completed!"]

/-- The epoch records of a two-epoch run of `zeroAccEnv`: test accuracy
`0` in both epochs, so nothing is ever checkpointed. -/
def zeroAccResults : List (EpochResult Nat) :=
  [{ trainLoss := 1, trainAcc := 1, testLoss := 1, testAcc := 0,
     total := 2, testTotal := 2, saved := none },
   { trainLoss := 1, trainAcc := 1, testLoss := 1, testAcc := 0,
     total := 2, testTotal := 2, saved := none }]

/-! ## Helper lemmas -/

lemma trainPass_total (env : Env S B P) :
    ∀ (l : List B) (a : PassAcc S),
      (trainPass env l a).total = a.total + (l.map env.batchSize).sum := by
  intro l
  induction l with
  | nil => intro a; simp [trainPass]
  | cons b bs ih =>
      intro a
      rw [trainPass, ih]
      simp [List.sum_cons]
      omega

lemma evalPass_total (env : Env S B P) (s : S) :
    ∀ (l : List B) (a : EvalAcc),
      (evalPass env s l a).total = a.total + (l.map env.batchSize).sum := by
  intro l
  induction l with
  | nil => intro a; simp [evalPass]
  | cons b bs ih =>
      intro a
      rw [evalPass, ih]
      simp [List.sum_cons]
      omega

/-- Inversion of a successful epoch: the test accuracy is a
nonnegative quotient of counts, the two totals are the loaders' sample
counts, the checkpoint is written exactly when the accuracy beats the
incoming best, and the outgoing best is the max of the two. -/
lemma epochBody_inv (env : Env S B P) (s : S) (best : Rat)
    (s1 : S) (best1 : Rat) (r : EpochResult P)
    (h : epochBody env s best = some (s1, best1, r)) :
    0 ≤ r.testAcc ∧ r.total = trainSampleCount env ∧
      r.testTotal = testSampleCount env ∧
      (r.saved.isSome = true ↔ best < r.testAcc) ∧
      best1 = max best r.testAcc := by
  simp only [epochBody] at h
  split at h
  · exact absurd h (by simp)
  split at h
  · exact absurd h (by simp)
  split at h
  · exact absurd h (by simp)
  split at h
  · exact absurd h (by simp)
  split at h
  case _ hlt =>
    simp only [Option.some.injEq, Prod.mk.injEq] at h
    obtain ⟨-, hb, hr⟩ := h
    subst hr
    refine ⟨div_nonneg (Nat.cast_nonneg _) (Nat.cast_nonneg _), ?_, ?_, ?_, ?_⟩
    · simpa [trainSampleCount] using trainPass_total env env.trainBatches
        { st := env.setTrain s, lossSum := 0, correct := 0, total := 0 }
    · simpa [testSampleCount] using evalPass_total env
        (env.setEval (trainPass env env.trainBatches
          { st := env.setTrain s, lossSum := 0, correct := 0, total := 0 }).st)
        env.testBatches { lossSum := 0, correct := 0, total := 0 }
    · simpa using hlt
    · rw [← hb]
      exact (max_eq_right hlt.le).symm
  case _ hge =>
    simp only [Option.some.injEq, Prod.mk.injEq] at h
    obtain ⟨-, hb, hr⟩ := h
    subst hr
    refine ⟨div_nonneg (Nat.cast_nonneg _) (Nat.cast_nonneg _), ?_, ?_, ?_, ?_⟩
    · simpa [trainSampleCount] using trainPass_total env env.trainBatches
        { st := env.setTrain s, lossSum := 0, correct := 0, total := 0 }
    · simpa [testSampleCount] using evalPass_total env
        (env.setEval (trainPass env env.trainBatches
          { st := env.setTrain s, lossSum := 0, correct := 0, total := 0 }).st)
        env.testBatches { lossSum := 0, correct := 0, total := 0 }
    · simp
      exact le_of_not_lt hge
    · rw [← hb]
      exact (max_eq_left (le_of_not_lt hge)).symm

lemma foldl_max_init_le : ∀ (l : List Rat) (b : Rat), b ≤ l.foldl max b := by
  intro l
  induction l with
  | nil => intro b; simp
  | cons x xs ih =>
      intro b
      rw [List.foldl_cons]
      exact le_trans (le_max_left b x) (ih (max b x))

lemma le_foldl_max_of_mem :
    ∀ (l : List Rat) (x b : Rat), x ∈ l → x ≤ l.foldl max b := by
  intro l
  induction l with
  | nil => intro x b h; cases h
  | cons y ys ih =>
      intro x b h
      rw [List.foldl_cons]
      rcases List.mem_cons.mp h with h | h
      · subst h
        exact le_trans (le_max_right b x) (foldl_max_init_le ys (max b x))
      · exact ih x (max b y) h

/-- A successful epoch needs all four divisors (lines 103, 104, 123,
124) nonzero: at least one train batch, at least one train sample, at
least one test batch, at least one test sample. -/
lemma epochBody_isSome (env : Env S B P) (s : S) (best : Rat)
    (h1 : env.trainBatches ≠ []) (h2 : 0 < trainSampleCount env)
    (h3 : env.testBatches ≠ []) (h4 : 0 < testSampleCount env) :
    (epochBody env s best).isSome = true := by
  simp only [epochBody]
  rw [if_neg (by simpa [List.length_eq_zero] using h1)]
  rw [if_neg (by
    rw [trainPass_total]
    simp only [Nat.zero_add]
    simpa [trainSampleCount] using Nat.pos_iff_ne_zero.mp h2)]
  rw [if_neg (by simpa [List.length_eq_zero] using h3)]
  rw [if_neg (by
    rw [evalPass_total]
    simp only [Nat.zero_add]
    simpa [testSampleCount] using Nat.pos_iff_ne_zero.mp h4)]
  split <;> rfl

/-- An empty training loader or an empty test dataset makes some epoch
division's divisor zero: the epoch raises (returns `none`). -/
lemma epochBody_none (env : Env S B P) (s : S) (best : Rat)
    (h : env.trainBatches = [] ∨ testSampleCount env = 0) :
    epochBody env s best = none := by
  rcases h with h | h
  · simp [epochBody, h]
  · simp only [epochBody]
    by_cases c1 : env.trainBatches.length = 0
    · rw [if_pos c1]
    · rw [if_neg c1]
      by_cases c2 : (trainPass env env.trainBatches
          { st := env.setTrain s, lossSum := 0, correct := 0,
            total := 0 }).total = 0
      · rw [if_pos c2]
      · rw [if_neg c2]
        by_cases c3 : env.testBatches.length = 0
        · rw [if_pos c3]
        · rw [if_neg c3]
          rw [if_pos (by
            rw [evalPass_total]
            simpa [testSampleCount] using h)]

/-- Invariants of the epoch loop, by induction on the epoch count with
the incoming `best_accuracy` generalized: a successful run yields one
record per epoch; every record's accuracy is nonnegative and its
totals are the loaders' sample counts; and epoch `e` writes the
checkpoint exactly when its test accuracy exceeds the running maximum
of `best` and the earlier accuracies. -/
lemma runEpochs_spec (env : Env S B P) :
    ∀ (n : Nat) (s : S) (best : Rat) (s2 : S) (best2 : Rat)
      (rs : List (EpochResult P)),
      runEpochs env n s best = some (s2, best2, rs) →
      rs.length = n ∧
        (∀ r ∈ rs, 0 ≤ r.testAcc ∧ r.total = trainSampleCount env ∧
          r.testTotal = testSampleCount env) ∧
        (∀ e (he : e < rs.length),
          ((rs.get ⟨e, he⟩).saved.isSome = true ↔
            ((rs.take e).map EpochResult.testAcc).foldl max best <
              (rs.get ⟨e, he⟩).testAcc)) := by
  intro n
  induction n with
  | zero =>
      intro s best s2 best2 rs h
      simp only [runEpochs, Option.some.injEq, Prod.mk.injEq] at h
      obtain ⟨-, -, hrs⟩ := h
      subst hrs
      refine ⟨rfl, by simp, ?_⟩
      intro e he
      exact absurd he (by simp)
  | succ n ih =>
      intro s best s2 best2 rs h
      rw [runEpochs] at h
      cases heb : epochBody env s best with
      | none => rw [heb] at h; cases h
      | some x =>
          obtain ⟨s1, best1, r⟩ := x
          rw [heb] at h
          dsimp only at h
          cases hre : runEpochs env n s1 best1 with
          | none => rw [hre] at h; cases h
          | some y =>
              obtain ⟨s2a, best2a, rs1⟩ := y
              rw [hre] at h
              dsimp only at h
              simp only [Option.some.injEq, Prod.mk.injEq] at h
              obtain ⟨-, -, hrs⟩ := h
              subst hrs
              obtain ⟨hacc0, htot0, htt0, hsave0, hbest1⟩ :=
                epochBody_inv env s best s1 best1 r heb
              obtain ⟨hlen, hmem, hiff⟩ := ih s1 best1 s2a best2a rs1 hre
              refine ⟨by simp [hlen], ?_, ?_⟩
              · intro q hq
                rcases List.mem_cons.mp hq with hh | hh
                · subst hh; exact ⟨hacc0, htot0, htt0⟩
                · exact hmem q hh
              · intro e he
                cases e with
                | zero => simpa using hsave0
                | succ e1 =>
                    have he1 : e1 < rs1.length := by
                      simpa using Nat.lt_of_succ_lt_succ he
                    have hstep := hiff e1 he1
                    rw [hbest1] at hstep
                    simpa [List.foldl_cons] using hstep

/-- With nonempty loaders and datasets, the whole run succeeds: no
division ever has a zero divisor. -/
lemma runEpochs_isSome (env : Env S B P)
    (h1 : env.trainBatches ≠ []) (h2 : 0 < trainSampleCount env)
    (h3 : env.testBatches ≠ []) (h4 : 0 < testSampleCount env) :
    ∀ (n : Nat) (s : S) (best : Rat),
      (runEpochs env n s best).isSome = true := by
  intro n
  induction n with
  | zero => intro s best; rfl
  | succ n ih =>
      intro s best
      rw [runEpochs]
      cases heb : epochBody env s best with
      | none =>
          exact absurd (epochBody_isSome env s best h1 h2 h3 h4)
            (by simp [heb])
      | some x =>
          obtain ⟨s1, best1, r⟩ := x
          dsimp only
          cases hre : runEpochs env n s1 best1 with
          | none => exact absurd (ih s1 best1) (by simp [hre])
          | some y => rfl

/-- With an empty training loader or an empty test dataset, any run of
at least one epoch raises in its first epoch. -/
lemma runEpochs_none (env : Env S B P) (s : S) (best : Rat) (n : Nat)
    (h : env.trainBatches = [] ∨ testSampleCount env = 0) :
    runEpochs env (n + 1) s best = none := by
  rw [runEpochs, epochBody_none env s best h]

/-- The metrics lines kept by `filter` from one epoch's events: exactly
the one printed at line 126. -/
lemma epochEvents_filter_metrics (i n : Nat) (r : EpochResult P) :
    (epochEvents i n r).filter Event.isMetrics =
      [Event.metrics (i + 1) n r.trainLoss r.trainAcc r.testLoss r.testAcc] := by
  cases hs : r.saved <;>
    simp [epochEvents, hs, Event.isMetrics]

/-- The epoch loop prints exactly one metrics line per epoch record. -/
lemma epochTraces_filter_metrics (n : Nat) :
    ∀ (rs : List (EpochResult P)) (i : Nat),
      ((epochTraces n i rs).filter Event.isMetrics).length = rs.length := by
  intro rs
  induction rs with
  | nil => intro i; rfl
  | cons r rs ih =>
      intro i
      rw [epochTraces, List.filter_append, List.length_append,
        epochEvents_filter_metrics, ih]
      simp [Nat.add_comm]

/-- Every persistence event in an epoch's output targets
`best_model.pth`. -/
lemma epochEvents_writePath (i n : Nat) (r : EpochResult P) :
    ∀ e ∈ epochEvents i n r,
      e.writePath = none ∨ e.writePath = some "best_model.pth" := by
  intro e he
  cases hs : r.saved with
  | none =>
      rw [epochEvents, hs] at he
      rcases List.mem_cons.mp he with h | h
      · subst h; exact Or.inl rfl
      · cases h
  | some p =>
      rw [epochEvents, hs] at he
      rcases List.mem_cons.mp he with h | h
      · subst h; exact Or.inl rfl
      · rcases List.mem_cons.mp h with h | h
        · subst h; exact Or.inr rfl
        · rcases List.mem_cons.mp h with h | h
          · subst h; exact Or.inl rfl
          · cases h

/-- Every persistence event of the whole epoch loop targets
`best_model.pth`. -/
lemma epochTraces_writePath (n : Nat) :
    ∀ (rs : List (EpochResult P)) (i : Nat),
      ∀ e ∈ epochTraces n i rs,
        e.writePath = none ∨ e.writePath = some "best_model.pth" := by
  intro rs
  induction rs with
  | nil => intro i e he; cases he
  | cons r rs ih =>
      intro i e he
      rcases List.mem_append.mp (by simpa [epochTraces] using he) with h | h
      · exact epochEvents_writePath i n r e h
      · exact ih (i + 1) e h

lemma getLast?_cons_append {α : Type} (x : α) :
    ∀ (l : List α) (a : α), (a :: (l ++ [x])).getLast? = some x := by
  intro l
  induction l with
  | nil => intro a; rfl
  | cons y ys ih =>
      intro a
      rw [List.cons_append, List.getLast?_cons_cons]
      exact ih y

/-- The run-level repackaging of `runEpochs_spec` with the initial
`best_accuracy = 0.0` of line 82. -/
lemma trainAndTestModel_spec (env : Env S B P) (s : S) (n : Nat)
    (rs : List (EpochResult P)) (h : trainAndTestModel env s n = some rs) :
    rs.length = n ∧
      (∀ r ∈ rs, 0 ≤ r.testAcc ∧ r.total = trainSampleCount env ∧
        r.testTotal = testSampleCount env) ∧
      (∀ e (he : e < rs.length),
        ((rs.get ⟨e, he⟩).saved.isSome = true ↔
          bestBefore ((rs.take e).map EpochResult.testAcc) <
            (rs.get ⟨e, he⟩).testAcc)) := by
  unfold trainAndTestModel at h
  cases hrun : runEpochs env n s 0 with
  | none => rw [hrun] at h; cases h
  | some x =>
      obtain ⟨s2, best2, rs1⟩ := x
      rw [hrun] at h
      simp only [Option.map_some', Option.some.injEq] at h
      subst h
      obtain ⟨hlen, hmem, hiff⟩ := runEpochs_spec env n s 0 s2 best2 rs1 hrun
      exact ⟨hlen, hmem, fun e he => by simpa [bestBefore] using hiff e he⟩

/-- The two-epoch `demoEnv` run evaluates to `demoResults`. -/
lemma demoRun_eq : trainAndTestModel demoEnv 0 2 = some demoResults := by
  norm_num [trainAndTestModel, runEpochs, epochBody, trainPass, evalPass,
    demoEnv, demoResults]

/-- The two-epoch `demoEnv` run's trace evaluates to `demoTrace`. -/
lemma demoTrace_eq : runTrace demoEnv 0 2 = some demoTrace := by
  rw [runTrace, demoRun_eq]
  rfl

/-- The two-epoch `zeroAccEnv` run evaluates to `zeroAccResults`. -/
lemma zeroAccRun_eq :
    trainAndTestModel zeroAccEnv 0 2 = some zeroAccResults := by
  norm_num [trainAndTestModel, runEpochs, epochBody, trainPass, evalPass,
    zeroAccEnv, demoEnv, zeroAccResults]

/-! ## Claim theorems -/

/-- C1, counterexample: the claim says `get_model` loads the network
with pretrained weights, but the code passes `weights=None`
(line 144), so the network of the default run
(`get_model("resnet18", 15)`) is not pretrained. -/
theorem getModel_not_pretrained_cex :
    Except.map ResNetModel.pretrained (getModel "resnet18" 15) =
      Except.ok false := rfl

/-- C1, amended: for either supported name, `get_model` instantiates
the corresponding resnet with `weights=None` (randomly initialized,
not pretrained), replaces its final fully-connected layer by a fresh
`Linear` with `num_classes` outputs (wrapped in `nn.Sequential`), and
leaves every parameter trainable, which is the network
`train_and_test_model` then trains. -/
theorem getModel_structure (numClasses : Nat) :
    getModel "resnet18" numClasses =
      Except.ok { arch := .resnet18, pretrained := false,
                  fc := .seqLinear 512 numClasses,
                  paramsRequireGrad := true } ∧
    getModel "resnet50" numClasses =
      Except.ok { arch := .resnet50, pretrained := false,
                  fc := .seqLinear 2048 numClasses,
                  paramsRequireGrad := true } :=
  ⟨rfl, rfl⟩

/-- C3, counterexample: the claim says every call with a missing
credential path raises `ValueError`, but when the output directory
already holds data the function returns `skipped` before the
credential check (lines 44-46), raising nothing. -/
theorem download_missing_path_no_raise_cex :
    (downloadDataFromKaggle none "d" "o"
      { outputDirExists := true, outputDirEntries := ["f"] }).result =
        DlResult.skipped ∧
    (downloadDataFromKaggle none "d" "o"
      { outputDirExists := true, outputDirEntries := ["f"] }).result.isRaised
        = false :=
  ⟨rfl, rfl⟩

/-- C3, amended: when the output directory is absent or empty, a
missing (None or empty) credential path makes
`download_data_from_kaggle` raise `ValueError` immediately; and
`get_model` with any name other than the two supported options raises
`ValueError`. -/
theorem misconfiguration_raises (p : Option String) (ds dir : String)
    (fs : FS) (name : String) (c : Nat)
    (hfs : ¬(fs.outputDirExists = true ∧ fs.outputDirEntries ≠ []))
    (hp : pathTruthy p = false)
    (h18 : name ≠ "resnet18") (h50 : name ≠ "resnet50") :
    (downloadDataFromKaggle p ds dir fs).result =
      DlResult.raised "The path to kaggle.json must be provided." ∧
    getModel name c = Except.error ("Unsupported model: " ++ name) := by
  constructor
  · unfold downloadDataFromKaggle
    rw [if_neg hfs, if_pos hp]
  · unfold getModel
    rw [if_neg h18, if_neg h50]

/-- C3, witness of the amended theorem at a concrete misconfigured
state and model name. -/
theorem misconfiguration_raises_witness :
    (downloadDataFromKaggle none "d" "o"
      { outputDirExists := false, outputDirEntries := [] }).result =
        DlResult.raised "The path to kaggle.json must be provided." ∧
    getModel "vgg16" 3 = Except.error ("Unsupported model: " ++ "vgg16") :=
  misconfiguration_raises none "d" "o"
    { outputDirExists := false, outputDirEntries := [] } "vgg16" 3
    (by decide) (by decide) (by decide) (by decide)

/-- C4: with the dataset already on disk (existing, nonempty output
directory), `download_data_from_kaggle` returns `skipped` and never
invokes the external download CLI. -/
theorem download_skipped_when_present (p : Option String)
    (ds dir : String) (fs : FS) (h1 : fs.outputDirExists = true)
    (h2 : fs.outputDirEntries ≠ []) :
    (downloadDataFromKaggle p ds dir fs).result = DlResult.skipped ∧
    ∀ args, FsEffect.runCli args ∉ (downloadDataFromKaggle p ds dir fs).effects := by
  have hc : (fs.outputDirExists = true) ∧ fs.outputDirEntries ≠ [] := ⟨h1, h2⟩
  unfold downloadDataFromKaggle
  rw [if_pos hc]
  exact ⟨rfl, by intro args; simp⟩

/-- C4, witness at a concrete present dataset. -/
theorem download_skipped_when_present_witness :
    (downloadDataFromKaggle (some "k") "d" "o"
      { outputDirExists := true, outputDirEntries := ["f"] }).result =
        DlResult.skipped ∧
    FsEffect.runCli ["kaggle", "datasets", "download", "-d", "d",
        "-p", "o", "--unzip"] ∉
      (downloadDataFromKaggle (some "k") "d" "o"
        { outputDirExists := true, outputDirEntries := ["f"] }).effects :=
  ⟨(download_skipped_when_present (some "k") "d" "o"
      { outputDirExists := true, outputDirEntries := ["f"] }
      (by decide) (by decide)).1,
   (download_skipped_when_present (some "k") "d" "o"
      { outputDirExists := true, outputDirEntries := ["f"] }
      (by decide) (by decide)).2 _⟩

/-- C9: with the dataset already on disk, the call returns before the
credential check and before any filesystem write: the result does not
depend on the credential path, no `ValueError` is raised even for a
missing path, and no `~/.kaggle` directory creation, credential copy
or chmod is performed. -/
theorem download_early_return_frame (ds dir : String) (fs : FS)
    (h1 : fs.outputDirExists = true) (h2 : fs.outputDirEntries ≠ []) :
    (∀ p q : Option String,
      downloadDataFromKaggle p ds dir fs = downloadDataFromKaggle q ds dir fs) ∧
    (downloadDataFromKaggle none ds dir fs).result.isRaised = false ∧
    ∀ e ∈ (downloadDataFromKaggle none ds dir fs).effects,
      FsEffect.touchesFs e = false := by
  have hc : (fs.outputDirExists = true) ∧ fs.outputDirEntries ≠ [] := ⟨h1, h2⟩
  refine ⟨?_, ?_, ?_⟩
  · intro p q
    unfold downloadDataFromKaggle
    rw [if_pos hc, if_pos hc]
  · unfold downloadDataFromKaggle
    rw [if_pos hc]
    rfl
  · unfold downloadDataFromKaggle
    rw [if_pos hc]
    intro e he
    rcases List.mem_cons.mp he with h | h
    · subst h; rfl
    · cases h

/-- C9, witness at a concrete present dataset and two credential
paths. -/
theorem download_early_return_frame_witness :
    downloadDataFromKaggle none "d" "o"
        { outputDirExists := true, outputDirEntries := ["f"] } =
      downloadDataFromKaggle (some "x") "d" "o"
        { outputDirExists := true, outputDirEntries := ["f"] } ∧
    (downloadDataFromKaggle none "d" "o"
      { outputDirExists := true, outputDirEntries := ["f"] }).result.isRaised
        = false :=
  ⟨(download_early_return_frame "d" "o"
      { outputDirExists := true, outputDirEntries := ["f"] }
      (by decide) (by decide)).1 none (some "x"),
   (download_early_return_frame "d" "o"
      { outputDirExists := true, outputDirEntries := ["f"] }
      (by decide) (by decide)).2.1⟩

/-- C2: in any non-raising run of `train_and_test_model`, epoch `e`
writes the checkpoint if and only if its test accuracy strictly
exceeds the running maximum of all earlier epochs' test accuracies
(taken as `0` when there are none, matching `best_accuracy = 0.0`);
hence a checkpoint written at epoch `e` holds the parameters of an
epoch whose test accuracy is strictly above every earlier one, i.e.
the highest observed up to the point it was written. -/
theorem checkpoint_iff_strict_improvement (env : Env S B P) (s : S)
    (n : Nat) (rs : List (EpochResult P))
    (h : trainAndTestModel env s n = some rs) :
    ∀ e (he : e < rs.length),
      ((rs.get ⟨e, he⟩).saved.isSome = true ↔
        bestBefore ((rs.take e).map EpochResult.testAcc) <
          (rs.get ⟨e, he⟩).testAcc) ∧
      ((rs.get ⟨e, he⟩).saved.isSome = true →
        ∀ r ∈ rs.take e, r.testAcc < (rs.get ⟨e, he⟩).testAcc) := by
  obtain ⟨-, -, hiff⟩ := trainAndTestModel_spec env s n rs h
  intro e he
  refine ⟨hiff e he, ?_⟩
  intro hsav r hr
  have hlt := (hiff e he).mp hsav
  have hmem : r.testAcc ∈ (rs.take e).map EpochResult.testAcc :=
    List.mem_map_of_mem _ hr
  exact lt_of_le_of_lt
    (le_foldl_max_of_mem ((rs.take e).map EpochResult.testAcc) r.testAcc 0 hmem)
    hlt

/-- C2, witness: in the two-epoch `demoEnv` run, epoch 2 ties the
previous best (`1/2`), and indeed no checkpoint is written there. -/
theorem checkpoint_iff_strict_improvement_witness :
    (demoResults.get ⟨1, by decide⟩).saved.isSome = true ↔
      bestBefore ((demoResults.take 1).map EpochResult.testAcc) <
        (demoResults.get ⟨1, by decide⟩).testAcc :=
  (checkpoint_iff_strict_improvement demoEnv 0 2 demoResults demoRun_eq
    1 (by decide)).1

/-- C5: a non-raising run executes exactly `num_epochs` epochs; in
each epoch the training pass feeds every batch of the training loader
through `trainStep` (the gradient-updating loop body of lines 90-101)
and then the test pass feeds every batch of the test loader through
the read-only `evalStep` (lines 112-121, under `torch.no_grad()`): the
accumulated per-epoch sample totals equal the loaders' full sample
counts. -/
theorem run_has_numEpochs_full_passes (env : Env S B P) (s : S)
    (n : Nat) (rs : List (EpochResult P))
    (h : trainAndTestModel env s n = some rs) :
    rs.length = n ∧
    ∀ r ∈ rs, r.total = trainSampleCount env ∧
      r.testTotal = testSampleCount env := by
  obtain ⟨hlen, hmem, -⟩ := trainAndTestModel_spec env s n rs h
  exact ⟨hlen, fun r hr => ⟨(hmem r hr).2.1, (hmem r hr).2.2⟩⟩

/-- C5, witness on the two-epoch `demoEnv` run. -/
theorem run_has_numEpochs_full_passes_witness :
    demoResults.length = 2 ∧
    ((demoResults.get ⟨0, by decide⟩).total = trainSampleCount demoEnv ∧
      (demoResults.get ⟨0, by decide⟩).testTotal = testSampleCount demoEnv) :=
  ⟨(run_has_numEpochs_full_passes demoEnv 0 2 demoResults demoRun_eq).1,
   (run_has_numEpochs_full_passes demoEnv 0 2 demoResults demoRun_eq).2
     _ (List.get_mem demoResults 0 (by decide))⟩

/-- C6: every persistence event in the output of the training loop
targets the single fixed relative path `best_model.pth` (line 135);
all other events are prints, so no other artifact path is ever
written. -/
theorem checkpoint_path_fixed (env : Env S B P) (s : S) (n : Nat)
    (tr : List (Event P)) (h : runTrace env s n = some tr) :
    ∀ e ∈ tr, e.writePath = none ∨ e.writePath = some "best_model.pth" := by
  unfold runTrace at h
  cases hrun : trainAndTestModel env s n with
  | none => rw [hrun] at h; cases h
  | some rs =>
      rw [hrun] at h
      simp only [Option.map_some', Option.some.injEq] at h
      subst h
      intro e he
      rw [traceOfResults] at he
      rcases List.mem_cons.mp he with hh | hh
      · subst hh; exact Or.inl rfl
      · rcases List.mem_append.mp hh with hh | hh
        · exact epochTraces_writePath n rs 0 e hh
        · rcases List.mem_cons.mp hh with hh | hh
          · subst hh; exact Or.inl rfl
          · cases hh

/-- C6, witness: the save event of the `demoEnv` run's trace targets
`best_model.pth`. -/
theorem checkpoint_path_fixed_witness :
    (Event.save "best_model.pth" (1 : Nat)).writePath = none ∨
    (Event.save "best_model.pth" (1 : Nat)).writePath =
      some "best_model.pth" :=
  checkpoint_path_fixed demoEnv 0 2 demoTrace demoTrace_eq _ (by decide)

/-- C7: a non-raising run runs to completion, printing exactly one
metrics line (train loss, train accuracy, test loss, test accuracy)
per epoch — `num_epochs` lines in all — and ends with the final
`Training completed!` print. -/
theorem run_prints_per_epoch_metrics (env : Env S B P) (s : S) (n : Nat)
    (tr : List (Event P)) (h : runTrace env s n = some tr) :
    (tr.filter Event.isMetrics).length = n ∧
    tr.getLast? = some (Event.msg "Training completed!") := by
  unfold runTrace at h
  cases hrun : trainAndTestModel env s n with
  | none => rw [hrun] at h; cases h
  | some rs =>
      rw [hrun] at h
      simp only [Option.map_some', Option.some.injEq] at h
      subst h
      obtain ⟨hlen, -, -⟩ := trainAndTestModel_spec env s n rs hrun
      constructor
      · rw [traceOfResults, List.filter_cons, List.filter_append]
        have h1 : Event.isMetrics (Event.msg (P := P)
            ("Training the model for " ++ toString n ++ " epochs.")) = false := rfl
        have h2 : List.filter Event.isMetrics
            [Event.msg (P := P) "Training completed!"] = [] := rfl
        rw [h1, h2]
        simp only [if_false, Bool.false_eq_true, List.append_nil]
        rw [epochTraces_filter_metrics]
        exact hlen
      · rw [traceOfResults]
        exact getLast?_cons_append _ _ _

/-- C7, witness on the two-epoch `demoEnv` run's trace. -/
theorem run_prints_per_epoch_metrics_witness :
    (demoTrace.filter Event.isMetrics).length = 2 ∧
    demoTrace.getLast? = some (Event.msg "Training completed!") :=
  run_prints_per_epoch_metrics demoEnv 0 2 demoTrace demoTrace_eq

/-- C8: with at least one train batch, one train sample, one test
batch and one test sample, every division of the epoch loop (lines
103, 104, 123, 124) has a nonzero divisor and the run succeeds;
conversely an empty training loader or an empty test dataset makes a
division fail in the first epoch (`ZeroDivisionError`, modelled as
`none`). -/
theorem division_safety (env : Env S B P) (s : S) (n : Nat) :
    ((env.trainBatches ≠ [] ∧ 0 < trainSampleCount env ∧
        env.testBatches ≠ [] ∧ 0 < testSampleCount env) →
      (trainAndTestModel env s n).isSome = true) ∧
    (1 ≤ n → env.trainBatches = [] ∨ testSampleCount env = 0 →
      trainAndTestModel env s n = none) := by
  constructor
  · rintro ⟨h1, h2, h3, h4⟩
    unfold trainAndTestModel
    have hsome := runEpochs_isSome env h1 h2 h3 h4 n s 0
    cases hrun : runEpochs env n s 0 with
    | none => rw [hrun] at hsome; cases hsome
    | some x => rfl
  · intro hn hcase
    obtain ⟨m, rfl⟩ : ∃ m, n = m + 1 := ⟨n - 1, by omega⟩
    unfold trainAndTestModel
    rw [runEpochs_none env s 0 m hcase]
    rfl

/-- C8, witness: the nonempty `demoEnv` run succeeds and the
empty-training-loader run raises. -/
theorem division_safety_witness :
    (trainAndTestModel demoEnv 0 2).isSome = true ∧
    trainAndTestModel emptyTrainEnv 0 1 = none :=
  ⟨(division_safety demoEnv 0 2).1 (by decide),
   (division_safety emptyTrainEnv 0 1).2 (by decide) (Or.inl rfl)⟩

/-- C10: in a non-raising run whose every epoch has test accuracy `0`,
no checkpoint is ever written, because `best_accuracy` starts at `0.0`
and saving requires a strictly greater accuracy; and with
`num_epochs = 0` there are no epochs at all, so nothing is written. -/
theorem no_checkpoint_when_no_improvement (env : Env S B P) (s : S)
    (n : Nat) (rs : List (EpochResult P))
    (h : trainAndTestModel env s n = some rs) :
    ((∀ r ∈ rs, r.testAcc = 0) → ∀ r ∈ rs, r.saved = none) ∧
    (n = 0 → rs = []) := by
  obtain ⟨hlen, -, hiff⟩ := trainAndTestModel_spec env s n rs h
  constructor
  · intro hz r hr
    obtain ⟨i, hi⟩ := List.mem_iff_get.mp hr
    by_contra hne
    have hsome : (rs.get i).saved.isSome = true := by
      rw [hi]
      cases hcs : r.saved with
      | none => exact absurd hcs hne
      | some p => rfl
    have hlt := (hiff i.1 i.2).mp hsome
    have hzero : (rs.get i).testAcc = 0 := by
      rw [hi]; exact hz r hr
    rw [hzero] at hlt
    exact absurd hlt (not_lt.mpr (foldl_max_init_le _ 0))
  · intro hn
    subst hn
    exact List.length_eq_zero.mp hlen

/-- C10, witness: the all-zero-accuracy `zeroAccEnv` run checkpoints
nothing in its first epoch. -/
theorem no_checkpoint_when_no_improvement_witness :
    (zeroAccResults.get ⟨0, by decide⟩).saved = none :=
  (no_checkpoint_when_no_improvement zeroAccEnv 0 2 zeroAccResults
    zeroAccRun_eq).1 (by simp [zeroAccResults]) _
    (List.get_mem zeroAccResults 0 (by decide))
